import Mathlib

/-
Verification of the position-tracking and market-acquisition engine
(src/main.py) against its design specification.

The Python program is embedded shallowly: network interaction is modelled
by scripted response sequences (one list entry per HTTP response the
upstream would produce), pandas DataFrames by lists of records, and
Python `dict.get` defaulting by `Option` with `getD`.  All prices and
PnL values are `Int`, matching Python's arbitrary-precision integers.
-/

namespace Tracker

/-! ## Configuration constants (src/main.py lines 11-14) -/

def FEE_CENTS : Int := 2
def MIN_PROBABILITY : Int := 80
def MAX_PROBABILITY : Int := 97
def HOURS_AHEAD : Int := 48

/-! ## ResilientFetcher: polite_request (src/main.py lines 16-34) -/

/-- Outcome of a single HTTP exchange as seen by `polite_request`:
a 200 response carrying a decoded payload, a 429 rate limit, some other
non-200 status, or a transport exception caught by the `except` clause. -/
inductive Resp (α : Type) where
  | ok (payload : α)
  | rateLimited
  | otherError
  | connError

/-- The `polite_request` function (src/main.py lines 16-34), run against a
scripted sequence of responses: each recursive call consumes the next
response.  Returns the decoded payload (`r.json()`) on status 200 and
`none` on any other terminal outcome, together with the number of
429-triggered retries performed (the number of recursive self-calls, each
preceded by a 1-second sleep).  An exhausted script behaves like a
transport failure. -/
def politeRequestR {α : Type} : List (Resp α) → Option α × Nat
  | [] => (none, 0)
  | Resp.ok p :: _ => (some p, 0)
  | Resp.rateLimited :: rest =>
      ((politeRequestR rest).1, (politeRequestR rest).2 + 1)
  | Resp.otherError :: _ => (none, 0)
  | Resp.connError :: _ => (none, 0)

/-- The value `polite_request` returns to its caller. -/
def politeRequest {α : Type} (rs : List (Resp α)) : Option α :=
  (politeRequestR rs).1

/-- Number of leading 429 responses in a response script. -/
def leading429 {α : Type} : List (Resp α) → Nat
  | Resp.rateLimited :: rest => leading429 rest + 1
  | _ => 0

/-! ## Upstream market objects (consumed fields, src/main.py) -/

/-- The `close_time` field as the scan loop sees it (src/main.py lines
180-185): absent or empty (Python-falsy), present but unparsable by
`pd.to_datetime` (the `except` branch), or parsed to a timestamp.
Timestamps are abstracted to integers; `HOURS_AHEAD` is in the same unit. -/
inductive CloseField where
  | missing
  | unparsable
  | parsed (t : Int)

/-- A market object decoded from upstream JSON.  Fields read with
`dict.get` are `Option`; `yes_bid`/`yes_ask` default to 0 at use sites. -/
structure Market where
  ticker : String
  title : String
  status : Option String
  yes_bid : Option Int
  yes_ask : Option Int
  close_time : CloseField
  result : Option String

/-- The empty dict that `data.get('market', {})` falls back to: every
`get` on it yields the default. -/
def emptyMarket : Market :=
  { ticker := "", title := "", status := none, yes_bid := none,
    yes_ask := none, close_time := CloseField.missing, result := none }

/-! ## MarketPager: fetch_all_active_markets (src/main.py lines 36-80) -/

/-- One decoded page of the listing endpoint: the `markets` key
(`none` when absent) and the optional `cursor` continuation token. -/
structure ListPage where
  markets : Option (List Market)
  cursor : Option String

/-- Python truthiness of an optional string: `None` and `""` are falsy. -/
def truthyStr : Option String → Bool
  | none => false
  | some s => s != ""

/-- The `while True` loop of `fetch_all_active_markets` (src/main.py lines
47-77), run against a scripted list of `polite_request` results, one entry
per page request issued.  Arguments mirror the loop state: accumulated
`all_markets` and the consecutive-failure `retry_count`.  Returns the
accumulated markets together with the number of page requests issued. -/
def fetchAllGo : List (Option ListPage) → List Market → Nat → List Market × Nat
  | [], acc, _ => (acc, 0)
  | none :: rest, acc, retry_count =>
      if retry_count + 1 > 3 then (acc, 1)
      else
        ((fetchAllGo rest acc (retry_count + 1)).1,
         (fetchAllGo rest acc (retry_count + 1)).2 + 1)
  | some page :: rest, acc, _ =>
      match page.markets with
      | none => (acc, 1)
      | some ms =>
        match ms with
        | [] => (acc, 1)
        | _ :: _ =>
          if truthyStr page.cursor then
            ((fetchAllGo rest (acc ++ ms) 0).1,
             (fetchAllGo rest (acc ++ ms) 0).2 + 1)
          else (acc ++ ms, 1)

/-- The function `fetch_all_active_markets` (src/main.py lines 36-80):
the loop started with empty accumulator and zero failures. -/
def fetch_all_active_markets (resps : List (Option ListPage)) :
    List Market × Nat :=
  fetchAllGo resps [] 0

/-! ## The position ledger (tracker rows, src/main.py lines 92-93, 201-205) -/

/-- One row of the tracking file.  `fav_side` holds `"YES"`/`"NO"`,
`status` holds `"PENDING"`/`"SETTLED"`, and `result` holds `""` until
settlement writes `"YES"` or `"NO"` (the CSV encodes absence as the empty
string, and `pnl` is initialised to 0 at creation). -/
structure Position where
  ticker : String
  question : String
  fav_side : String
  entry_cost : Int
  current_price : Int
  status : String
  open_date : Int
  close_date : Int
  result : String
  pnl : Int

/-- One row of the odds-history file (src/main.py lines 143-149). -/
structure HistoryRow where
  timestamp : Int
  ticker : String
  yes_bid : Int
  yes_ask : Int
  status : Option String

/-- Payload of the single-market endpoint: wraps the market object under
the `market` key (src/main.py line 117). -/
structure SinglePayload where
  market : Option Market

/-- Python's `str.upper()` as used on the `result` field (src/main.py
line 155): per-character uppercasing, written by structural recursion on
the character list so proofs can evaluate it. -/
def strUpper (s : String) : String :=
  String.mk (s.data.map Char.toUpper)

/-! ## SettlementResolver: the position-update loop body
(src/main.py lines 111-162) -/

/-- Body of the pending-position update loop (src/main.py lines 111-162)
for one position: `data` is the `polite_request` result for the
single-market endpoint.  On `none` the row is left untouched and no
history is logged; otherwise the current valuation is recomputed, a
history row is emitted, and the settlement check runs. -/
def resolvePosition (p : Position) (data : Option SinglePayload) (now : Int) :
    Position × Option HistoryRow :=
  match data with
  | none => (p, none)
  | some payload =>
    let m := payload.market.getD emptyMarket
    let yes_bid := m.yes_bid.getD 0
    let yes_ask := m.yes_ask.getD 0
    let current_price := if p.fav_side = "YES" then yes_bid else 100 - yes_ask
    let p1 : Position := { p with current_price := current_price }
    let hist : HistoryRow :=
      { timestamp := now, ticker := p.ticker, yes_bid := yes_bid,
        yes_ask := yes_ask, status := m.status }
    if m.status = some "settled" then
      match m.result with
      | some r =>
        if r = "yes" ∨ r = "no" then
          let winner := strUpper r
          let pnl := if winner = p.fav_side
            then (100 - p.entry_cost) - FEE_CENTS
            else -p.entry_cost - FEE_CENTS
          ({ p1 with status := "SETTLED", result := winner, pnl := pnl },
           some hist)
        else (p1, some hist)
      | none => (p1, some hist)
    else (p1, some hist)

/-- Phase 2 of the cycle (src/main.py lines 101-162): every row matching
the PENDING mask is passed through `resolvePosition`; `resps` scripts the
single-market response each position's re-fetch receives. -/
def resolvePhase (ledger : List Position)
    (resps : Position → Option SinglePayload) (now : Int) : List Position :=
  ledger.map fun p =>
    if p.status = "PENDING" then (resolvePosition p (resps p) now).1 else p

/-! ## FavoriteSelector: the scan-loop body (src/main.py lines 176-207) -/

/-- Favorite determination (src/main.py lines 190-196): decides the
favored side and entry cost from the yes-side quotes, `none` when neither
side qualifies. -/
def favDetermine (yes_bid yes_ask : Int) : Option (String × Int) :=
  if yes_bid ≥ MIN_PROBABILITY then some ("YES", yes_ask)
  else if yes_bid ≤ 100 - MIN_PROBABILITY then some ("NO", 100 - yes_bid)
  else none

/-- Body of the new-opportunity scan loop (src/main.py lines 176-205) for
one market: `none` on any `continue`, otherwise the freshly constructed
PENDING tracker row. -/
def evaluateMarket (tracked : List String) (now : Int) (m : Market) :
    Option Position :=
  if m.ticker ∈ tracked then none
  else
    match m.close_time with
    | CloseField.missing => none
    | CloseField.unparsable => none
    | CloseField.parsed close_date =>
      if close_date > now + HOURS_AHEAD ∨ close_date < now then none
      else
        match favDetermine (m.yes_bid.getD 0) (m.yes_ask.getD 0) with
        | none => none
        | some (fav, cost) =>
          if cost < MIN_PROBABILITY ∨ cost > MAX_PROBABILITY then none
          else some
            { ticker := m.ticker, question := m.title, fav_side := fav,
              entry_cost := cost, current_price := cost, status := "PENDING",
              open_date := now, close_date := close_date, result := "",
              pnl := 0 }

/-- The rows collected in `new_tracker_rows` over a whole scan
(src/main.py lines 176-205). -/
def scanNewRows (tracked : List String) (now : Int) (markets : List Market) :
    List Position :=
  markets.filterMap (evaluateMarket tracked now)

/-- Phase 3-4 of the cycle (src/main.py lines 174-211): `tracked_tickers`
is read once from the ledger, the scan runs, and the new rows are
concatenated onto the ledger. -/
def appendPhase (ledger : List Position) (now : Int)
    (markets : List Market) : List Position :=
  ledger ++ scanNewRows (ledger.map Position.ticker) now markets

/-- One full invocation of `run_hourly_cycle` at the ledger level:
resolve pending positions, then scan and append (src/main.py lines
100-211).  The history file is write-only and does not feed back. -/
def runCycle (ledger : List Position)
    (resps : Position → Option SinglePayload) (markets : List Market)
    (now : Int) : List Position :=
  appendPhase (resolvePhase ledger resps now) now markets

/-- Ledger states producible by the program: the empty schema-initialised
ledger of a first run, closed under running cycles. -/
inductive Reachable : List Position → Prop
  | init : Reachable []
  | step (l : List Position) (resps : Position → Option SinglePayload)
      (markets : List Market) (now : Int) :
      Reachable l → Reachable (runCycle l resps markets now)

/-! ## Per-position invariant maintained by every cycle -/

/-- Field discipline every position created and mutated by the program
obeys: a two-valued status; the CSV absence sentinels (`""` for `result`,
`0` for `pnl`) exactly while PENDING; a real outcome and a nonzero
realized PnL once SETTLED; a two-valued favored side; and an entry cost
inside the configured acceptance band. -/
def PosInv (p : Position) : Prop :=
  (p.status = "PENDING" ∨ p.status = "SETTLED") ∧
  (p.status = "PENDING" → p.result = "" ∧ p.pnl = 0) ∧
  (p.status = "SETTLED" → (p.result = "YES" ∨ p.result = "NO") ∧ p.pnl ≠ 0) ∧
  (p.fav_side = "YES" ∨ p.fav_side = "NO") ∧
  MIN_PROBABILITY ≤ p.entry_cost ∧ p.entry_cost ≤ MAX_PROBABILITY

/-! ## Concrete sample data used by witnesses and counterexamples -/

/-- The acceptance scenario of the spec: yes-bid 92, yes-ask 94,
closing 10 time units ahead. -/
def mX : Market :=
  { ticker := "X", title := "q", status := some "active",
    yes_bid := some 92, yes_ask := some 94,
    close_time := CloseField.parsed 10, result := none }

/-- The position `evaluateMarket [] 0 mX` creates. -/
def posX : Position :=
  { ticker := "X", question := "q", fav_side := "YES", entry_cost := 94,
    current_price := 94, status := "PENDING", open_date := 0,
    close_date := 10, result := "", pnl := 0 }

/-- A tracked PENDING position used by the settlement counterexample. -/
def pPend : Position :=
  { ticker := "X", question := "q", fav_side := "YES", entry_cost := 94,
    current_price := 94, status := "PENDING", open_date := 0,
    close_date := 10, result := "", pnl := 0 }

/-- A settled upstream market answering `pPend`'s re-fetch. -/
def mSettledYes : Market :=
  { ticker := "X", title := "q", status := some "settled",
    yes_bid := some 99, yes_ask := some 100,
    close_time := CloseField.parsed 10, result := some "yes" }

/-- A tracked PENDING position used by the missing-prices counterexample. -/
def pPendB : Position :=
  { ticker := "Y", question := "q", fav_side := "YES", entry_cost := 85,
    current_price := 94, status := "PENDING", open_date := 0,
    close_date := 10, result := "", pnl := 0 }

/-- A re-fetched market object with both price fields absent. -/
def mNoPrices : Market :=
  { ticker := "Y", title := "q", status := some "active",
    yes_bid := none, yes_ask := none,
    close_time := CloseField.missing, result := none }

/-- A settled market answering `pPendB`'s re-fetch with outcome yes. -/
def mSettledBYes : Market :=
  { ticker := "Y", title := "q", status := some "settled",
    yes_bid := some 99, yes_ask := some 100,
    close_time := CloseField.parsed 10, result := some "yes" }

/-- A settled market answering `pPendB`'s re-fetch with outcome no. -/
def mSettledBNo : Market :=
  { ticker := "Y", title := "q", status := some "settled",
    yes_bid := some 1, yes_ask := some 2,
    close_time := CloseField.parsed 10, result := some "no" }

/-- A market for pager witnesses. -/
def mA : Market :=
  { ticker := "A", title := "a", status := some "active",
    yes_bid := some 90, yes_ask := some 92,
    close_time := CloseField.parsed 5, result := none }

/-! ## ResilientFetcher theorems -/

/-- C3 (counterexample): against the response script 429, 429, 200 the
fetcher performs two 429-triggered retries, not exactly one — each 429
reply triggers a fresh recursive retry, so the retry count tracks the
run of consecutive 429s instead of being capped at one. -/
theorem rate_limit_retries_twice :
    (politeRequestR [Resp.rateLimited, Resp.rateLimited,
        Resp.ok (7 : Int)]).2 = 2 ∧
    (politeRequestR [Resp.rateLimited, Resp.rateLimited,
        Resp.ok (7 : Int)]).2 ≠ 1 := by
  constructor
  · rfl
  · decide

/-- C3 (amended): on every HTTP 429 the fetcher sleeps and reissues the
same request once; the number of 429-triggered retries of one
`polite_request` call equals the number of consecutive leading 429
responses — it is not capped at one — and on a script of n 429s followed
by a 200 the call returns that 200's payload after exactly n retries, so
the call terminates whenever the 429 run is finite. -/
theorem polite_request_retry_per_429 {α : Type} (rs : List (Resp α))
    (n : Nat) (p : α) (rest : List (Resp α)) :
    (politeRequestR rs).2 = leading429 rs ∧
    politeRequestR (List.replicate n Resp.rateLimited ++ Resp.ok p :: rest)
      = (some p, n) := by
  constructor
  · induction rs with
    | nil => rfl
    | cons r rest ih =>
      cases r with
      | ok q => rfl
      | rateLimited => simp only [politeRequestR, leading429, ih]
      | otherError => rfl
      | connError => rfl
  · induction n with
    | zero => rfl
    | succ k ih =>
      rw [List.replicate_succ, List.cons_append]
      show ((politeRequestR
          (List.replicate k Resp.rateLimited ++ Resp.ok p :: rest)).1,
        (politeRequestR
          (List.replicate k Resp.rateLimited ++ Resp.ok p :: rest)).2 + 1)
        = (some p, k + 1)
      rw [ih]

/-! ## FavoriteSelector theorems -/

/-- If the upstream market never yields a cost inside the acceptance
band, the scan-loop body rejects it (every branch reaches a `continue`). -/
theorem evaluateMarket_reject (tracked : List String) (now : Int)
    (m : Market)
    (h : ∀ fav cost,
      favDetermine (m.yes_bid.getD 0) (m.yes_ask.getD 0) = some (fav, cost) →
      cost < MIN_PROBABILITY ∨ cost > MAX_PROBABILITY) :
    evaluateMarket tracked now m = none := by
  unfold evaluateMarket
  split
  · rfl
  split
  · rfl
  · rfl
  split
  · rfl
  split
  · rfl
  next fav cost hfd =>
    split
    · rfl
    next hband => exact absurd (h fav cost hfd) hband

/-- C1: favorite determination over a market snapshot — a yes-bid at or
above `MIN_PROBABILITY` (80) favors YES at cost equal to the yes-ask; a
yes-bid at or below 100 − 80 = 20 favors NO at cost 100 − bid; and
any snapshot whose yes-bid lies strictly between those thresholds is
rejected by the scan loop, so no position is created from it. -/
theorem favorite_selector_branches (yes_bid yes_ask : Int) :
    (yes_bid ≥ MIN_PROBABILITY →
      favDetermine yes_bid yes_ask = some ("YES", yes_ask)) ∧
    (yes_bid ≤ 100 - MIN_PROBABILITY →
      favDetermine yes_bid yes_ask = some ("NO", 100 - yes_bid)) ∧
    (∀ (tracked : List String) (now : Int) (m : Market),
      m.yes_bid = some yes_bid → 100 - MIN_PROBABILITY < yes_bid →
      yes_bid < MIN_PROBABILITY → evaluateMarket tracked now m = none) := by
  refine ⟨?_, ?_, ?_⟩
  · intro h
    unfold favDetermine
    rw [if_pos h]
  · intro h
    unfold MIN_PROBABILITY at h
    unfold favDetermine MIN_PROBABILITY
    rw [if_neg (by omega), if_pos (by omega)]
  · intro tracked now m hb hlo hhi
    refine evaluateMarket_reject tracked now m ?_
    intro fav cost hfd
    unfold MIN_PROBABILITY at hlo hhi
    unfold favDetermine MIN_PROBABILITY at hfd
    simp only [hb, Option.getD_some] at hfd
    rw [if_neg (by omega : ¬ yes_bid ≥ 80),
      if_neg (by omega : ¬ yes_bid ≤ 100 - 80)] at hfd
    cases hfd

/-- C1 witness: the three branches at concrete quotes — bid 92 / ask 94
gives YES at 94, bid 15 gives NO at 85, and bid 50 is rejected. -/
theorem favorite_selector_branches_witness :
    favDetermine 92 94 = some ("YES", 94) ∧
    favDetermine 15 20 = some ("NO", 85) ∧
    evaluateMarket [] 0
      { ticker := "M", title := "m", status := none, yes_bid := some 50,
        yes_ask := some 55, close_time := CloseField.parsed 10,
        result := none } = none :=
  ⟨(favorite_selector_branches 92 94).1 (by decide),
   (favorite_selector_branches 15 20).2.1 (by decide),
   (favorite_selector_branches 50 55).2.2 [] 0 _ rfl (by decide) (by decide)⟩

/-! ## MarketPager theorems -/

/-- Four consecutive failed page requests abort the scan after exactly
four requests, returning whatever was accumulated so far. -/
theorem fetchAllGo_four_failures (rest : List (Option ListPage))
    (acc : List Market) :
    fetchAllGo (List.replicate 4 none ++ rest) acc 0 = (acc, 4) := by
  show fetchAllGo (none :: none :: none :: none :: rest) acc 0 = (acc, 4)
  norm_num [fetchAllGo]

/-- One successful nonempty page with a truthy cursor: the loop appends
its markets, resets the failure counter, and issues one more request than
the rest of the run does. -/
theorem fetchAllGo_cons_good (a : Market) (as : List Market) (c : String)
    (hc : c ≠ "") (rest : List (Option ListPage)) (acc : List Market)
    (k : Nat) :
    fetchAllGo (some ⟨some (a :: as), some c⟩ :: rest) acc k
      = ((fetchAllGo rest (acc ++ (a :: as)) 0).1,
         (fetchAllGo rest (acc ++ (a :: as)) 0).2 + 1) := by
  simp [fetchAllGo, truthyStr, hc]

/-- One successful nonempty page without a cursor field ends the scan:
its markets are appended and no further request is issued. -/
theorem fetchAllGo_no_cursor (a : Market) (as : List Market)
    (rest : List (Option ListPage)) (acc : List Market) (k : Nat) :
    fetchAllGo (some ⟨some (a :: as), none⟩ :: rest) acc k
      = (acc ++ (a :: as), 1) := by
  simp [fetchAllGo, truthyStr]

/-- Running the pager loop over a series of successful nonempty pages
with truthy cursors accumulates their markets in order, one request
each; a trailing run of four failures then aborts with four more
requests, touching nothing beyond. -/
theorem fetchAllGo_good_pages (pages : List (List Market × String))
    (rest : List (Option ListPage)) (acc : List Market)
    (h : ∀ q ∈ pages, q.1 ≠ [] ∧ q.2 ≠ "") :
    fetchAllGo
      ((pages.map fun q => some ⟨some q.1, some q.2⟩) ++
        List.replicate 4 none ++ rest) acc 0
      = (acc ++ (pages.map Prod.fst).flatten, pages.length + 4) := by
  induction pages generalizing acc with
  | nil => simpa using fetchAllGo_four_failures rest acc
  | cons q qs ih =>
    obtain ⟨ms, c⟩ := q
    have hms : ms ≠ [] := (h _ (List.mem_cons_self _ _)).1
    have hc : c ≠ "" := (h _ (List.mem_cons_self _ _)).2
    cases ms with
    | nil => exact absurd rfl hms
    | cons a as =>
      have htail := ih (acc ++ (a :: as))
        fun q hq => h q (List.mem_cons_of_mem _ hq)
      simp only [List.map_cons, List.cons_append]
      rw [fetchAllGo_cons_good a as c hc _ _ 0, htail]
      simp [List.append_assoc]

/-- C4: when the listing endpoint answers with any run of successful
pages followed by 4 consecutive Absent responses, the pager increments
its failure counter past 3 and stops: it issues exactly one request per
good page plus the four failed ones (nothing of the remaining script is
touched), and returns exactly the markets accumulated from the pages
fetched before the failures.  The embedding is a total function, so the
scan ends in this return value rather than in an exception. -/
theorem pager_bounded_abort (pages : List (List Market × String))
    (rest : List (Option ListPage))
    (h : ∀ q ∈ pages, q.1 ≠ [] ∧ q.2 ≠ "") :
    fetch_all_active_markets
      ((pages.map fun q => some ⟨some q.1, some q.2⟩) ++
        List.replicate 4 none ++ rest)
      = ((pages.map Prod.fst).flatten, pages.length + 4) := by
  unfold fetch_all_active_markets
  simpa using fetchAllGo_good_pages pages rest [] h

/-- C4 witness: one good page of one market, then four failures, then a
further (never-requested) page: the pager returns that single market
after five requests. -/
theorem pager_bounded_abort_witness :
    fetch_all_active_markets
      (([([mA], "c1")].map fun q => some ⟨some q.1, some q.2⟩) ++
        List.replicate 4 none ++ [some ⟨some [mA], some "c2"⟩])
      = ([mA], 5) :=
  (pager_bounded_abort [([mA], "c1")] [some ⟨some [mA], some "c2"⟩]
    (by intro q hq
        simp only [List.mem_singleton] at hq
        subst hq
        exact ⟨by simp, by decide⟩)).trans (by norm_num)

/-- C9: when pages 1 and 2 succeed with truthy cursors and page 3
succeeds without a cursor field, the pager returns exactly the
concatenation of the three pages' markets in order and issues exactly
three requests — no fourth request is made, whatever the rest of the
script holds. -/
theorem pagination_stops_without_cursor
    (m1 m2 m3 : List Market) (c1 c2 : String)
    (rest : List (Option ListPage))
    (h1 : m1 ≠ []) (h2 : m2 ≠ []) (h3 : m3 ≠ [])
    (hc1 : c1 ≠ "") (hc2 : c2 ≠ "") :
    fetch_all_active_markets
      (some ⟨some m1, some c1⟩ :: some ⟨some m2, some c2⟩ ::
        some ⟨some m3, none⟩ :: rest)
      = (m1 ++ m2 ++ m3, 3) := by
  obtain ⟨a1, t1, rfl⟩ := List.exists_cons_of_ne_nil h1
  obtain ⟨a2, t2, rfl⟩ := List.exists_cons_of_ne_nil h2
  obtain ⟨a3, t3, rfl⟩ := List.exists_cons_of_ne_nil h3
  unfold fetch_all_active_markets
  rw [fetchAllGo_cons_good _ _ _ hc1, fetchAllGo_cons_good _ _ _ hc2,
    fetchAllGo_no_cursor]
  simp [List.append_assoc]

/-- C9 witness: pages of sizes 1, 2, 1 at concrete markets; the pager
returns their four markets and stops after the third request even though
a fourth response is scripted. -/
theorem pagination_stops_without_cursor_witness :
    fetch_all_active_markets
      (some ⟨some [mA], some "p1"⟩ :: some ⟨some [mA, mA], some "p2"⟩ ::
        some ⟨some [mA], none⟩ :: [some ⟨some [mA], some "p4"⟩])
      = ([mA] ++ [mA, mA] ++ [mA], 3) :=
  pagination_stops_without_cursor [mA] [mA, mA] [mA] "p1" "p2"
    [some ⟨some [mA], some "p4"⟩]
    (by simp) (by simp) (by simp) (by decide) (by decide)

/-! ## SettlementResolver theorems -/

/-- C2: a PENDING position whose re-fetched market reports status
`settled` with result `yes` or `no` receives realized PnL
`(100 − entryCost) − feeCents` when the result matches the favored side
and `−entryCost − feeCents` otherwise, with `FEE_CENTS = 2`. -/
theorem settlement_pnl_formula (p : Position) (pl : SinglePayload)
    (m : Market) (now : Int) (r : String)
    (hp : p.status = "PENDING")
    (hfav : p.fav_side = "YES" ∨ p.fav_side = "NO")
    (hm : pl.market = some m) (hs : m.status = some "settled")
    (hr : m.result = some r) (hyn : r = "yes" ∨ r = "no") :
    (resolvePosition p (some pl) now).1.pnl =
      if (r = "yes" ∧ p.fav_side = "YES") ∨ (r = "no" ∧ p.fav_side = "NO")
      then (100 - p.entry_cost) - FEE_CENTS
      else -p.entry_cost - FEE_CENTS := by
  have hyes : strUpper "yes" = "YES" := by decide
  have hno : strUpper "no" = "NO" := by decide
  rcases hyn with rfl | rfl <;> rcases hfav with hf | hf <;>
    simp [resolvePosition, hm, hs, hr, hf, hyes, hno]

/-- C2 witness: entry cost 85, fee 2 — a win realizes +13 cents, a loss
realizes −87 cents. -/
theorem settlement_pnl_formula_witness :
    (resolvePosition pPendB (some ⟨some mSettledBYes⟩) 5).1.pnl = 13 ∧
    (resolvePosition pPendB (some ⟨some mSettledBNo⟩) 5).1.pnl = -87 :=
  ⟨(settlement_pnl_formula pPendB ⟨some mSettledBYes⟩ mSettledBYes 5 "yes"
      rfl (Or.inl rfl) rfl rfl rfl (Or.inl rfl)).trans (by decide),
   (settlement_pnl_formula pPendB ⟨some mSettledBNo⟩ mSettledBNo 5 "no"
      rfl (Or.inl rfl) rfl rfl rfl (Or.inr rfl)).trans (by decide)⟩

/-- C7 (counterexample): settling `pPend` (created with scheduled close
time 10) during a cycle invoked at time 77 does transition it to SETTLED,
but leaves `close_date` at 10 — the settlement code writes only `status`,
`result` and `pnl`, so `closedAt` is not frozen to the invocation time. -/
theorem settlement_leaves_close_date :
    (resolvePosition pPend (some ⟨some mSettledYes⟩) 77).1.status
      = "SETTLED" ∧
    (resolvePosition pPend (some ⟨some mSettledYes⟩) 77).1.close_date
      = 10 ∧
    (resolvePosition pPend (some ⟨some mSettledYes⟩) 77).1.close_date
      ≠ 77 := by
  refine ⟨by decide, by decide, by decide⟩

/-- C7 (amended): when a position's re-fetched market reports status
`settled` with result `yes` or `no`, the transition sets
`settlementResult` to the uppercased remote outcome, sets status to
SETTLED and computes the realized PnL, while `close_date` keeps the value
recorded at creation (the market's scheduled close time) — it is not set
to the invocation time — and the identifying immutable fields are
likewise unchanged. -/
theorem settlement_transition_fields (p : Position) (pl : SinglePayload)
    (m : Market) (now : Int) (r : String)
    (hm : pl.market = some m) (hs : m.status = some "settled")
    (hr : m.result = some r) (hyn : r = "yes" ∨ r = "no") :
    (resolvePosition p (some pl) now).1.status = "SETTLED" ∧
    (resolvePosition p (some pl) now).1.result = strUpper r ∧
    (resolvePosition p (some pl) now).1.pnl =
      (if strUpper r = p.fav_side then (100 - p.entry_cost) - FEE_CENTS
       else -p.entry_cost - FEE_CENTS) ∧
    (resolvePosition p (some pl) now).1.close_date = p.close_date ∧
    (resolvePosition p (some pl) now).1.open_date = p.open_date ∧
    (resolvePosition p (some pl) now).1.ticker = p.ticker ∧
    (resolvePosition p (some pl) now).1.entry_cost = p.entry_cost ∧
    (resolvePosition p (some pl) now).1.fav_side = p.fav_side := by
  rcases hyn with rfl | rfl <;> simp [resolvePosition, hm, hs, hr]

/-- C7 witness: the amended transition at the concrete settlement of
`pPend`. -/
theorem settlement_transition_fields_witness :
    (resolvePosition pPend (some ⟨some mSettledYes⟩) 77).1.status
      = "SETTLED" ∧
    (resolvePosition pPend (some ⟨some mSettledYes⟩) 77).1.result
      = strUpper "yes" ∧
    (resolvePosition pPend (some ⟨some mSettledYes⟩) 77).1.pnl =
      (if strUpper "yes" = pPend.fav_side
       then (100 - pPend.entry_cost) - FEE_CENTS
       else -pPend.entry_cost - FEE_CENTS) ∧
    (resolvePosition pPend (some ⟨some mSettledYes⟩) 77).1.close_date
      = pPend.close_date ∧
    (resolvePosition pPend (some ⟨some mSettledYes⟩) 77).1.open_date
      = pPend.open_date ∧
    (resolvePosition pPend (some ⟨some mSettledYes⟩) 77).1.ticker
      = pPend.ticker ∧
    (resolvePosition pPend (some ⟨some mSettledYes⟩) 77).1.entry_cost
      = pPend.entry_cost ∧
    (resolvePosition pPend (some ⟨some mSettledYes⟩) 77).1.fav_side
      = pPend.fav_side :=
  settlement_transition_fields pPend ⟨some mSettledYes⟩ mSettledYes 77
    "yes" rfl rfl rfl (Or.inl rfl)

/-- C8: when a PENDING position's market is successfully re-fetched and
carries both quotes, the updated current valuation is the best yes-bid
for a YES holding and 100 minus the best yes-ask for a NO holding. -/
theorem valuation_update (p : Position) (pl : SinglePayload) (m : Market)
    (now b a : Int)
    (hm : pl.market = some m) (hb : m.yes_bid = some b)
    (ha : m.yes_ask = some a) :
    (p.fav_side = "YES" →
      (resolvePosition p (some pl) now).1.current_price = b) ∧
    (p.fav_side = "NO" →
      (resolvePosition p (some pl) now).1.current_price = 100 - a) := by
  constructor <;> intro hf <;>
    simp [resolvePosition, hm, hb, ha, hf] <;>
    (repeat' split) <;> rfl

/-- C8 witness: a YES holding values at the bid (99) and a NO holding at
100 − ask = 0 against the same re-fetched quotes. -/
theorem valuation_update_witness :
    (pPend.fav_side = "YES" →
      (resolvePosition pPend (some ⟨some mSettledYes⟩) 5).1.current_price
        = 99) ∧
    (pPend.fav_side = "NO" →
      (resolvePosition pPend (some ⟨some mSettledYes⟩) 5).1.current_price
        = 100 - 100) :=
  valuation_update pPend ⟨some mSettledYes⟩ mSettledYes 5 99 100
    rfl rfl rfl

/-! ## Missing-price-field handling (C10) -/

/-- C10 (counterexample): a tracked PENDING YES position (current
valuation 94) whose re-fetched market object carries neither `yes_bid`
nor `yes_ask` is not skipped: the update loop derives a new current
valuation of 0 from the defaulted prices and still emits a history row
built from those defaults. -/
theorem missing_prices_not_skipped :
    (resolvePosition pPendB (some ⟨some mNoPrices⟩) 5).1.current_price
      = 0 ∧
    pPendB.current_price = 94 ∧
    (resolvePosition pPendB (some ⟨some mNoPrices⟩) 5).2.isSome = true :=
  ⟨rfl, rfl, rfl⟩

/-- C10 (amended): in the scan phase, a candidate missing `yes_bid` is
always rejected — the defaulted bid 0 selects the NO side at cost 100,
outside the acceptance band — and a candidate whose bid favors YES but
missing `yes_ask` is rejected at defaulted cost 0; no position is created
from either.  A tracked position, however, is not skipped when its
re-fetched market lacks price fields: the fields default to 0 and a YES
holding's current valuation is recomputed as 0 from them. -/
theorem missing_price_fields_behavior (tracked : List String) (now : Int)
    (m : Market) :
    (m.yes_bid = none → evaluateMarket tracked now m = none) ∧
    (∀ b : Int, m.yes_bid = some b → b ≥ MIN_PROBABILITY →
      m.yes_ask = none → evaluateMarket tracked now m = none) ∧
    (∀ (p : Position) (pl : SinglePayload) (t : Int),
      p.fav_side = "YES" → pl.market = some m → m.yes_bid = none →
      (resolvePosition p (some pl) t).1.current_price = 0) := by
  refine ⟨?_, ?_, ?_⟩
  · intro hb
    refine evaluateMarket_reject tracked now m ?_
    intro fav cost hfd
    simp only [hb, Option.getD_none] at hfd
    unfold favDetermine MIN_PROBABILITY at hfd
    norm_num at hfd
    obtain ⟨-, rfl⟩ := hfd
    right
    decide
  · intro b hb hbig ha
    refine evaluateMarket_reject tracked now m ?_
    intro fav cost hfd
    simp only [hb, Option.getD_some, ha, Option.getD_none] at hfd
    unfold favDetermine at hfd
    rw [if_pos hbig] at hfd
    simp only [Option.some.injEq, Prod.mk.injEq] at hfd
    obtain ⟨-, rfl⟩ := hfd
    left
    decide
  · intro p pl t hf hm hb
    simp [resolvePosition, hm, hb, hf] <;> (repeat' split) <;> rfl

/-- C10 witness: the amended behavior at concrete inputs — `mNoPrices`
is rejected as a candidate, a bid-85/no-ask market is rejected as a
candidate, and `pPendB`'s valuation is recomputed to 0 from the
defaults. -/
theorem missing_price_fields_behavior_witness :
    evaluateMarket [] 0 mNoPrices = none ∧
    evaluateMarket [] 0
      { ticker := "Z", title := "z", status := some "active",
        yes_bid := some 85, yes_ask := none,
        close_time := CloseField.parsed 10, result := none } = none ∧
    (resolvePosition pPendB (some ⟨some mNoPrices⟩) 5).1.current_price
      = 0 :=
  ⟨(missing_price_fields_behavior [] 0 mNoPrices).1 rfl,
   (missing_price_fields_behavior [] 0 _).2.1 85 rfl (by decide) rfl,
   (missing_price_fields_behavior [] 0 mNoPrices).2.2 pPendB
     ⟨some mNoPrices⟩ 5 rfl rfl rfl⟩

/-! ## Ledger identifier uniqueness (C5) -/

/-- The favored side a selector acceptance assigns is YES or NO. -/
theorem favDetermine_side (b a : Int) (fav : String) (cost : Int)
    (h : favDetermine b a = some (fav, cost)) :
    fav = "YES" ∨ fav = "NO" := by
  unfold favDetermine at h
  split at h
  · simp only [Option.some.injEq, Prod.mk.injEq] at h
    exact Or.inl h.1.symm
  split at h
  · simp only [Option.some.injEq, Prod.mk.injEq] at h
    exact Or.inr h.1.symm
  · exact Option.noConfusion h

/-- Everything the scan-loop body guarantees about a position it accepts:
it carries the market's identifier, which was not tracked; it is freshly
PENDING with the CSV absence sentinels in `result` and `pnl`; its entry
cost lies in the acceptance band and equals the initial valuation; and
its favored side is two-valued. -/
theorem evaluateMarket_some_spec (tracked : List String) (now : Int)
    (m : Market) (p : Position)
    (h : evaluateMarket tracked now m = some p) :
    p.ticker = m.ticker ∧ m.ticker ∉ tracked ∧ p.status = "PENDING" ∧
    p.result = "" ∧ p.pnl = 0 ∧ MIN_PROBABILITY ≤ p.entry_cost ∧
    p.entry_cost ≤ MAX_PROBABILITY ∧
    (p.fav_side = "YES" ∨ p.fav_side = "NO") ∧
    p.current_price = p.entry_cost := by
  unfold evaluateMarket at h
  split at h
  · exact Option.noConfusion h
  next hmem =>
    split at h
    · exact Option.noConfusion h
    · exact Option.noConfusion h
    split at h
    · exact Option.noConfusion h
    split at h
    · exact Option.noConfusion h
    next fav cost hfd =>
      split at h
      · exact Option.noConfusion h
      next hband =>
        have hside := favDetermine_side _ _ _ _ hfd
        have hband2 := not_or.mp hband
        injection h with h2
        subst h2
        exact ⟨rfl, hmem, rfl, rfl, rfl, not_lt.mp hband2.1,
          not_lt.mp hband2.2, hside, rfl⟩

/-- The identifiers of the rows a scan creates form a sublist of the
identifiers of the scanned markets. -/
theorem scanNewRows_tickers_sublist (tracked : List String) (now : Int)
    (markets : List Market) :
    ((scanNewRows tracked now markets).map Position.ticker).Sublist
      (markets.map Market.ticker) := by
  induction markets with
  | nil => simp [scanNewRows]
  | cons m ms ih =>
    cases hem : evaluateMarket tracked now m with
    | none =>
      simp only [scanNewRows, List.filterMap_cons, hem, List.map_cons]
      exact ih.cons _
    | some p =>
      simp only [scanNewRows, List.filterMap_cons, hem, List.map_cons]
      rw [(evaluateMarket_some_spec _ _ _ _ hem).1]
      exact ih.cons₂ _

/-- No row a scan creates carries an identifier that was already
tracked when the scan started. -/
theorem scanNewRows_tickers_not_tracked (tracked : List String) (now : Int)
    (markets : List Market) :
    ∀ t ∈ (scanNewRows tracked now markets).map Position.ticker,
      t ∉ tracked := by
  intro t ht
  obtain ⟨p, hp, rfl⟩ := List.mem_map.mp ht
  obtain ⟨m, _, hem⟩ := List.mem_filterMap.mp hp
  have spec := evaluateMarket_some_spec _ _ _ _ hem
  rw [spec.1]
  exact spec.2.1

/-- C5 (counterexample): starting from the empty ledger (trivially free
of duplicate identifiers), a scan whose market list contains the same
qualifying market twice appends two positions with identifier "X" — the
"already tracked" set is read once, before the scan, so duplicates inside
one scan pass the check together. -/
theorem ledger_duplicate_from_duplicate_scan :
    (([] : List Position).map Position.ticker).Nodup ∧
    ¬ ((appendPhase [] 0 [mX, mX]).map Position.ticker).Nodup := by
  constructor
  · simp
  · rw [show (appendPhase [] 0 [mX, mX]).map Position.ticker = ["X", "X"]
      from rfl]
    decide

/-- C5 (amended): for every cycle starting from a ledger with pairwise
distinct identifiers, the ledger after the append phase still has
pairwise distinct identifiers for any scanned market list whose own
identifiers are pairwise distinct — the already-tracked check blocks
re-tracking of ledger identifiers, and distinctness of the scan list
rules out intra-scan duplicates. -/
theorem append_preserves_unique_tickers (ledger : List Position)
    (now : Int) (markets : List Market)
    (hl : (ledger.map Position.ticker).Nodup)
    (hm : (markets.map Market.ticker).Nodup) :
    ((appendPhase ledger now markets).map Position.ticker).Nodup := by
  unfold appendPhase
  rw [List.map_append, List.nodup_append]
  refine ⟨hl, ?_, ?_⟩
  · exact hm.sublist (scanNewRows_tickers_sublist _ _ _)
  · intro t htl hts
    exact scanNewRows_tickers_not_tracked _ _ _ t hts htl

/-- C5 witness: appending the single qualifying market `mX` to the empty
ledger yields a duplicate-free ledger. -/
theorem append_preserves_unique_tickers_witness :
    ((appendPhase [] 0 [mX]).map Position.ticker).Nodup :=
  append_preserves_unique_tickers [] 0 [mX] (by simp) (by simp)

/-! ## Settlement-field invariant over reachable ledgers (C6) -/

/-- The position-update loop body preserves the per-position field
discipline: a non-settling pass touches only `current_price`, and a
settling pass writes a two-valued `result` and a PnL that the acceptance
band keeps away from the 0 sentinel. -/
theorem resolvePosition_preserves_inv (p : Position)
    (d : Option SinglePayload) (now : Int) (hinv : PosInv p) :
    PosInv (resolvePosition p d now).1 := by
  obtain ⟨hstat, hpend, hsettled, hfav, hlo, hhi⟩ := hinv
  cases d with
  | none => exact ⟨hstat, hpend, hsettled, hfav, hlo, hhi⟩
  | some payload =>
    unfold resolvePosition
    simp only []
    split
    · split
      next r hr =>
        split
        next hyn =>
          refine ⟨Or.inr rfl, ?_, ?_, hfav, hlo, hhi⟩
          · intro hc
            have hc2 : ("SETTLED" : String) = "PENDING" := hc
            exact absurd hc2 (by decide)
          · intro _
            constructor
            · rcases hyn with rfl | rfl
              · have hres : strUpper "yes" = "YES" := by decide
                exact Or.inl hres
              · have hres : strUpper "no" = "NO" := by decide
                exact Or.inr hres
            · intro hzero
              have hc2 : (if strUpper r = p.fav_side
                  then (100 - p.entry_cost) - FEE_CENTS
                  else -p.entry_cost - FEE_CENTS) = 0 := hzero
              unfold FEE_CENTS at hc2
              unfold MIN_PROBABILITY at hlo
              unfold MAX_PROBABILITY at hhi
              split at hc2 <;> omega
        · exact ⟨hstat, hpend, hsettled, hfav, hlo, hhi⟩
      · exact ⟨hstat, hpend, hsettled, hfav, hlo, hhi⟩
    · exact ⟨hstat, hpend, hsettled, hfav, hlo, hhi⟩

/-- One whole cycle preserves the per-position field discipline of every
ledger row: resolved rows by the previous lemma, untouched rows
trivially, and freshly scanned rows by construction. -/
theorem runCycle_preserves_inv (l : List Position)
    (resps : Position → Option SinglePayload) (markets : List Market)
    (now : Int) (h : ∀ p ∈ l, PosInv p) :
    ∀ p ∈ runCycle l resps markets now, PosInv p := by
  intro p hp
  unfold runCycle appendPhase at hp
  rw [List.mem_append] at hp
  cases hp with
  | inl hp =>
    unfold resolvePhase at hp
    obtain ⟨q, hq, rfl⟩ := List.mem_map.mp hp
    split
    · exact resolvePosition_preserves_inv q _ now (h q hq)
    · exact h q hq
  | inr hp =>
    obtain ⟨m, -, hem⟩ := List.mem_filterMap.mp hp
    obtain ⟨-, -, hP, hres, hpnl, hblo, hbhi, hside, -⟩ :=
      evaluateMarket_some_spec _ _ _ _ hem
    refine ⟨Or.inl hP, fun _ => ⟨hres, hpnl⟩, ?_, hside, hblo, hbhi⟩
    intro hc
    rw [hP] at hc
    exact absurd hc (by decide)

/-- Every reachable ledger satisfies the per-position field discipline. -/
theorem reachable_inv (l : List Position) (h : Reachable l) :
    ∀ p ∈ l, PosInv p := by
  induction h with
  | init => intro p hp; exact absurd hp (List.not_mem_nil p)
  | step l resps markets now _ ih =>
    exact runCycle_preserves_inv l resps markets now ih

/-- C6: in every reachable ledger state, a position's `result` and `pnl`
fields hold something other than their CSV absence sentinels (`""`
and `0`) exactly when its status is SETTLED; in particular a freshly
created PENDING position carries the empty result and zero PnL, i.e. no
settlement result and no realized PnL. -/
theorem settled_fields_iff (l : List Position) (h : Reachable l) :
    ∀ p ∈ l,
      (p.result ≠ "" ↔ p.status = "SETTLED") ∧
      (p.pnl ≠ 0 ↔ p.status = "SETTLED") ∧
      (p.status = "PENDING" → p.result = "" ∧ p.pnl = 0) := by
  intro p hp
  obtain ⟨hstat, hpend, hsettled, -, -, -⟩ := reachable_inv l h p hp
  refine ⟨⟨?_, ?_⟩, ⟨?_, ?_⟩, hpend⟩
  · intro hres
    cases hstat with
    | inl hP => exact absurd (hpend hP).1 hres
    | inr hS => exact hS
  · intro hS
    rcases (hsettled hS).1 with h1 | h1 <;> rw [h1] <;> decide
  · intro hpnl
    cases hstat with
    | inl hP => exact absurd (hpend hP).2 hpnl
    | inr hS => exact hS
  · intro hS
    exact (hsettled hS).2

/-- C6 witness: the ledger reached by one cycle from the first run —
scanning the single qualifying market `mX` — contains exactly the fresh
PENDING position `posX`, whose fields satisfy the invariant. -/
theorem settled_fields_iff_witness :
    (posX.result ≠ "" ↔ posX.status = "SETTLED") ∧
    (posX.pnl ≠ 0 ↔ posX.status = "SETTLED") ∧
    (posX.status = "PENDING" → posX.result = "" ∧ posX.pnl = 0) :=
  settled_fields_iff (runCycle [] (fun _ => none) [mX] 0)
    (Reachable.step [] (fun _ => none) [mX] 0 Reachable.init) posX
    (by rw [show runCycle [] (fun _ => none) [mX] 0 = [posX] from rfl]
        exact List.mem_singleton.mpr rfl)

end Tracker
